import Mathlib

/-!
Shallow embedding of the `struct2db` persistence controller
(`Controller.Save`, `Load`, `Delete`, `DeleteMultiple`, `UpdateMultiple`,
`Get`, `StringToFieldValues`) from the Go source.

External collaborators (the database connection, the SQL generator, the
validator and the cascade traversal `runOnDelete`) are not part of the
source under verification; their outcomes are supplied as oracle fields of
the `Controller` structure, and every controller operation additionally
returns the trace of database statements it issued, so that "executes no
database statement" claims are statable.
-/

namespace Struct2DB

/-- Primitive field kinds of a record's data fields (reflect.Int64,
reflect.Int, reflect.String, reflect.Bool in the Go source). -/
inductive FKind where
  | i64
  | int
  | str
  | bool
deriving DecidableEq, Repr

/-- A field value of one of the primitive kinds. Go's `int64` and `int`
are modelled as unbounded `Int`; none of the verified claims depends on
overflow behaviour. -/
inductive FValue where
  | vInt64 (n : Int)
  | vInt (n : Int)
  | vStr (s : String)
  | vBool (b : Bool)
deriving DecidableEq, Repr

/-- The kind of a field value. -/
def FValue.kind : FValue → FKind
  | .vInt64 _ => .i64
  | .vInt _ => .int
  | .vStr _ => .str
  | .vBool _ => .bool

/-- The zero value of a field's kind (Go zero values). -/
def FValue.zero : FValue → FValue
  | .vInt64 _ => .vInt64 0
  | .vInt _ => .vInt 0
  | .vStr _ => .vStr ""
  | .vBool _ => .vBool false

/-- Whether a field value equals the zero value of its kind. -/
def FValue.isZero : FValue → Bool
  | .vInt64 n => n = 0
  | .vInt n => n = 0
  | .vStr s => s = ""
  | .vBool b => b = false

/-- A record value: one integer identity field plus named data fields.
Mirrors the tagged Go structs the controller reflects over. -/
structure Obj where
  id : Int
  fields : List (String × FValue)
deriving DecidableEq, Repr

/-- Modelled from the spec: `IdentityValue(record) → integer` (the Go
helper `GetObjIDValue`, not in the sources under verification). -/
def GetObjIDValue (o : Obj) : Int := o.id

/-- Modelled from the spec: `ResetFields(record)` sets identity and every
data field to its zero value, in place (the Go helper `ResetFields`, not
in the sources under verification). -/
def ResetFields (o : Obj) : Obj :=
  { id := 0, fields := o.fields.map (fun p => (p.1, p.2.zero)) }

/-- Database-level errors. `noRows` stands for `sql.ErrNoRows`; every
other driver failure is `failure code`. -/
inductive DBErr where
  | noRows
  | failure (code : Nat)
deriving DecidableEq, Repr

/-- What a `fmt.Errorf("...: %w", e)` wrapped: a database error, the
`strconv.Atoi` error, or (when `e` was nil) nothing. -/
inductive WrappedE where
  | dbE (e : DBErr)
  | atoiE
deriving DecidableEq, Repr

/-- The `Err` payload of an `ErrController`. -/
inductive ErrPayload where
  | validation (fields : List String)
  | wrapped (w : Option WrappedE)
  | missingValues
  | schemaFail
  | validateWrap
deriving DecidableEq, Repr

/-- The controller's error type: operation name plus payload, mirroring
Go's `ErrController{Op, Err}`. -/
structure ErrController where
  Op : String
  Err : ErrPayload
deriving DecidableEq, Repr

/-- The SQL statements the controller can issue (produced by the SQL
generator collaborator; the text itself is out of scope). -/
inductive Stmt where
  | insert
  | insertOnConflictUpdate
  | updateById
  | selectById
  | deleteById
  | deleteReturningID
  | updateWithFilters
  | selectWithFilters
deriving DecidableEq, Repr

/-- Observable events of one controller call: a database round trip, or
an invocation of the cascade traversal `runOnDelete` with its seed
identities and depth. -/
inductive Event where
  | dbExec (s : Stmt)
  | dbQuery (s : Stmt)
  | cascade (ids : List Int) (depth : Int)
deriving DecidableEq, Repr

/-- Whether an event is a database statement (as opposed to a cascade
traversal invocation). -/
def Event.isDb : Event → Bool
  | .dbExec _ => true
  | .dbQuery _ => true
  | .cascade _ _ => false

/-- Result triple of the Go validator `Controller.Validate(obj, filters)`:
the boolean verdict, the invalid field names, and whether the validator
itself errored. -/
structure ValidateRes where
  b : Bool
  invalidFields : List String
  errored : Bool
deriving DecidableEq, Repr

/-- The controller together with oracles for its collaborators: the
outcome of schema resolution (`getSQLGenerator`), the validator's verdict
per filter map (`nil` is the empty map), the outcomes of each database
round trip, and the cascade traversal's outcome per seed/depth. -/
structure Controller where
  schema : Option ErrController
  validate : List (String × FValue) → ValidateRes
  execUpdateByIdErr : Option DBErr
  execUpsertErr : Option DBErr
  insertScan : Except DBErr Int
  selectByIdScan : Except DBErr Obj
  execDeleteByIdErr : Option DBErr
  deleteReturningRows : Except DBErr (List (Except DBErr Int))
  execUpdateErr : Option DBErr
  selectRows : Except DBErr (List (Except DBErr Obj))
  cascade : List Int → Int → Option ErrController

structure SaveOptions where
  NoInsert : Bool
deriving DecidableEq, Repr

structure GetOptions where
  Order : List String := []
  Limit : Int := 0
  Offset : Int := 0
  Filters : List (String × FValue) := []
  RowObjTransformFunc : Option (Obj → Obj) := none

structure DeleteOptions where
  Constructors : List String := []

structure DeleteMultipleOptions where
  Filters : List (String × FValue) := []
  CascadeDeleteDepth : Int := 0
  Constructors : List String := []

structure UpdateMultipleOptions where
  Filters : List (String × FValue) := []
  CascadeDeleteDepth : Int := 0
  ConvertValuesFromString : Bool := false

/-- Result of an operation that may mutate the passed record: the
returned error (`none` is success), the record afterwards, and the trace
of events. -/
structure OpResult where
  err : Option ErrController
  obj : Obj
  trace : List Event
deriving Repr

/-- `Controller.Save` from the source: resolve schema, validate the full
record, then insert / upsert / update-by-id depending on the identity
value and `NoInsert`. -/
def Controller.Save (c : Controller) (obj : Obj) (options : SaveOptions) : OpResult :=
  match c.schema with
  | some e => ⟨some e, obj, []⟩
  | none =>
    let vr := c.validate []
    if vr.errored then
      ⟨some ⟨"Validate", .validateWrap⟩, obj, []⟩
    else if !vr.b then
      ⟨some ⟨"Validate", .validation vr.invalidFields⟩, obj, []⟩
    else
      if GetObjIDValue obj ≠ 0 then
        if options.NoInsert then
          match c.execUpdateByIdErr with
          | some e3 => ⟨some ⟨"DBQuery", .wrapped (some (.dbE e3))⟩, obj, [.dbExec .updateById]⟩
          | none => ⟨none, obj, [.dbExec .updateById]⟩
        else
          match c.execUpsertErr with
          | some e3 => ⟨some ⟨"DBQuery", .wrapped (some (.dbE e3))⟩, obj, [.dbExec .insertOnConflictUpdate]⟩
          | none => ⟨none, obj, [.dbExec .insertOnConflictUpdate]⟩
      else
        match c.insertScan with
        | .error e3 => ⟨some ⟨"DBQuery", .wrapped (some (.dbE e3))⟩, obj, [.dbQuery .insert]⟩
        | .ok newId => ⟨none, { obj with id := newId }, [.dbQuery .insert]⟩

/-- Whether a character is a decimal digit, by code point. -/
def isDigitChar (ch : Char) : Bool :=
  48 ≤ ch.toNat && ch.toNat ≤ 57

/-- Accumulate the decimal value of a digit run; `none` at the first
non-digit character. -/
def digitsValAux : List Char → Nat → Option Nat
  | [], acc => some acc
  | ch :: rest, acc =>
    if isDigitChar ch then digitsValAux rest (10 * acc + (ch.toNat - 48)) else none

/-- Decimal value of a nonempty all-digit character list, `none`
otherwise. -/
def digitsVal : List Char → Option Nat
  | [] => none
  | ch :: rest => digitsValAux (ch :: rest) 0

/-- Go's `strconv.Atoi`: optional sign followed by at least one decimal
digit. (The 64-bit range check is not modelled; no claim depends on it.) -/
def goAtoi (s : String) : Option Int :=
  match s.data with
  | [] => none
  | ch :: rest =>
    if ch = '-' then (digitsVal rest).map (fun n => -(n : Int))
    else if ch = '+' then (digitsVal rest).map (fun n => (n : Int))
    else (digitsVal (ch :: rest)).map (fun n => (n : Int))

/-- `Controller.Load` from the source: parse the id, resolve schema, run
select-by-id and scan into the record; `sql.ErrNoRows` resets the record
and succeeds. Note the source wraps `err` (the already-nil Atoi error),
not `err3`, in the non-noRows failure branch; the embedding keeps that. -/
def Controller.Load (c : Controller) (obj : Obj) (id : String) : OpResult :=
  match goAtoi id with
  | none => ⟨some ⟨"IDToInt", .wrapped (some .atoiE)⟩, obj, []⟩
  | some _ =>
    match c.schema with
    | some e2 => ⟨some e2, obj, []⟩
    | none =>
      match c.selectByIdScan with
      | .error .noRows => ⟨none, ResetFields obj, [.dbQuery .selectById]⟩
      | .error _ => ⟨some ⟨"DBQuery", .wrapped none⟩, obj, [.dbQuery .selectById]⟩
      | .ok bound => ⟨none, bound, [.dbQuery .selectById]⟩

/-- `Controller.Delete` from the source: no-op success when the identity
is 0; otherwise delete-by-id, reset the record's fields, then run the
cascade traversal seeded with the single deleted identity at depth 0. -/
def Controller.Delete (c : Controller) (obj : Obj) (options : DeleteOptions) : OpResult :=
  match c.schema with
  | some e => ⟨some e, obj, []⟩
  | none =>
    let id := GetObjIDValue obj
    if id = 0 then
      ⟨none, obj, []⟩
    else
      match c.execDeleteByIdErr with
      | some e2 => ⟨some ⟨"DBQuery", .wrapped (some (.dbE e2))⟩, obj, [.dbExec .deleteById]⟩
      | none =>
        let obj2 := ResetFields obj
        match c.cascade [id] 0 with
        | some e3 => ⟨some e3, obj2, [.dbExec .deleteById, .cascade [id] 0]⟩
        | none => ⟨none, obj2, [.dbExec .deleteById, .cascade [id] 0]⟩

/-- The `rows.Next`/`rows.Scan` loop of `DeleteMultiple`: collect the
returned identities, aborting on the first scan failure. -/
def scanReturnedIds : List (Except DBErr Int) → Except DBErr (List Int)
  | [] => .ok []
  | .error e :: _ => .error e
  | .ok i :: rest =>
    match scanReturnedIds rest with
    | .error e => .error e
    | .ok is => .ok (i :: is)

/-- Result of an operation that takes a factory instead of a record:
error and event trace only. -/
structure MultiResult where
  err : Option ErrController
  trace : List Event
deriving Repr

/-- `Controller.DeleteMultiple` from the source: validate filters when
present, run delete-returning-ids, scan all returned identities, then run
the cascade traversal over them iff `CascadeDeleteDepth < 3`. -/
def Controller.DeleteMultiple (c : Controller) (newObjFunc : Unit → Obj)
    (options : DeleteMultipleOptions) : MultiResult :=
  match c.schema with
  | some e => ⟨some e, []⟩
  | none =>
    let vr := c.validate options.Filters
    if options.Filters.length > 0 && vr.errored then
      ⟨some ⟨"ValidateFilters", .validateWrap⟩, []⟩
    else if options.Filters.length > 0 && !vr.b then
      ⟨some ⟨"ValidateFilters", .validation vr.invalidFields⟩, []⟩
    else
      match c.deleteReturningRows with
      | .error e2 => ⟨some ⟨"DBQuery", .wrapped (some (.dbE e2))⟩, [.dbQuery .deleteReturningID]⟩
      | .ok rows =>
        match scanReturnedIds rows with
        | .error e3 => ⟨some ⟨"DBQueryRowsScan", .wrapped (some (.dbE e3))⟩, [.dbQuery .deleteReturningID]⟩
        | .ok returnedIds =>
          if options.CascadeDeleteDepth < 3 then
            match c.cascade returnedIds options.CascadeDeleteDepth with
            | some e3 => ⟨some e3, [.dbQuery .deleteReturningID, .cascade returnedIds options.CascadeDeleteDepth]⟩
            | none => ⟨none, [.dbQuery .deleteReturningID, .cascade returnedIds options.CascadeDeleteDepth]⟩
          else
            ⟨none, [.dbQuery .deleteReturningID]⟩

/-- Go's `strconv.ParseInt(s, 10, 64)` as used for 64-bit fields: same
shape as `goAtoi` (range check likewise not modelled). -/
def goParseInt64 (s : String) : Option Int := goAtoi s

/-- Per-entry conversion of `Controller.StringToFieldValues`: look the key
up among the record type's fields and convert the string by the field's
kind. Non-string values reaching an integer or boolean branch make Go's
`v.(string)` type assertion panic, so they are outside the function's
domain; the embedding maps them to `none`. The string-kind branch passes
the raw value through without an assertion, as the source does. -/
def coerceEntry (t : List (String × FKind)) (p : String × FValue) : Option (String × FValue) :=
  match t.lookup p.1 with
  | none => none
  | some .i64 =>
    match p.2 with
    | .vStr s => (goParseInt64 s).map (fun n => (p.1, FValue.vInt64 n))
    | _ => none
  | some .int =>
    match p.2 with
    | .vStr s => (goAtoi s).map (fun n => (p.1, FValue.vInt n))
    | _ => none
  | some .str => some p
  | some .bool =>
    match p.2 with
    | .vStr s => some (p.1, FValue.vBool (s == "true"))
    | _ => none

/-- `Controller.StringToFieldValues` from the source: build the output
map from those entries whose key names a field of the record type `t`,
converting each string by the field's declared kind; keys absent from the
record, and integer values that fail parsing, are dropped. -/
def Controller.StringToFieldValues (t : List (String × FKind))
    (values : List (String × FValue)) : List (String × FValue) :=
  values.filterMap (coerceEntry t)

/-- `Controller.UpdateMultiple` from the source: require a non-empty
values map, optionally coerce string values, validate values and filters,
then run one UPDATE. `t` is the record type's field-kind table the Go
code obtains by reflection from `newObjFunc()`. -/
def Controller.UpdateMultiple (c : Controller) (t : List (String × FKind))
    (values : List (String × FValue)) (options : UpdateMultipleOptions) : MultiResult :=
  match c.schema with
  | some e => ⟨some e, []⟩
  | none =>
    if values.length < 1 then
      ⟨some ⟨"MissingValues", .missingValues⟩, []⟩
    else
      let values2 :=
        if options.ConvertValuesFromString then Controller.StringToFieldValues t values
        else values
      let vr := c.validate values2
      if vr.errored then
        ⟨some ⟨"ValidateValues", .validateWrap⟩, []⟩
      else if !vr.b then
        ⟨some ⟨"ValidateValues", .validation vr.invalidFields⟩, []⟩
      else
        let fr := c.validate options.Filters
        if options.Filters.length > 0 && fr.errored then
          ⟨some ⟨"ValidateFilters", .validateWrap⟩, []⟩
        else if options.Filters.length > 0 && !fr.b then
          ⟨some ⟨"ValidateFilters", .validation fr.invalidFields⟩, []⟩
        else
          match c.execUpdateErr with
          | some e2 => ⟨some ⟨"DBQuery", .wrapped (some (.dbE e2))⟩, [.dbExec .updateWithFilters]⟩
          | none => ⟨none, [.dbExec .updateWithFilters]⟩

/-- The `rows.Next`/`rows.Scan` loop of `Get`: bind each row into a fresh
record, apply the optional transform, and append; the first scan failure
aborts with `nil` and the error. -/
def getRowsLoop (tf : Option (Obj → Obj)) :
    List (Except DBErr Obj) → Option (List Obj) × Option ErrController
  | [] => (some [], none)
  | .error e :: _ => (none, some ⟨"DBQueryRowsScan", .wrapped (some (.dbE e))⟩)
  | .ok newObj :: rest =>
    let r := getRowsLoop tf rest
    match r.2 with
    | some e => (none, some e)
    | none =>
      match r.1 with
      | some v => (some ((match tf with | some f2 => f2 newObj | none => newObj) :: v), none)
      | none => (none, none)

/-- `Controller.Get` from the source: validate filters when present, run
the parameterized select and bind each row, transforming it when
`RowObjTransformFunc` is set. Returns the list (or `none` standing for
Go's nil slice on failure), the error, and the event trace. -/
def Controller.Get (c : Controller) (newObjFunc : Unit → Obj) (options : GetOptions) :
    Option (List Obj) × Option ErrController × List Event :=
  match c.schema with
  | some e => (none, some e, [])
  | none =>
    let vr := c.validate options.Filters
    if options.Filters.length > 0 && vr.errored then
      (none, some ⟨"ValidateFilters", .validateWrap⟩, [])
    else if options.Filters.length > 0 && !vr.b then
      (none, some ⟨"ValidateFilters", .validation vr.invalidFields⟩, [])
    else
      match c.selectRows with
      | .error e2 => (none, some ⟨"DBQuery", .wrapped (some (.dbE e2))⟩, [.dbQuery .selectWithFilters])
      | .ok rows =>
        let r := getRowsLoop options.RowObjTransformFunc rows
        (r.1, r.2, [.dbQuery .selectWithFilters])

/-! ### Concrete sample data used to instantiate the theorems. -/

/-- A cascade-traversal oracle that always succeeds. -/
def cascadeNone : List Int → Int → Option ErrController := fun _ _ => none

/-- A controller whose collaborators all succeed: schema resolves, the
validator accepts, inserts yield identity 42, select-by-id finds no row,
delete-returning-ids returns identities 7 and 8. -/
def cOk : Controller where
  schema := none
  validate := fun _ => ⟨true, [], false⟩
  execUpdateByIdErr := none
  execUpsertErr := none
  insertScan := .ok 42
  selectByIdScan := .error .noRows
  execDeleteByIdErr := none
  deleteReturningRows := .ok [.ok 7, .ok 8]
  execUpdateErr := none
  selectRows := .ok []
  cascade := cascadeNone

/-- A record with unassigned identity and two data fields. -/
def objA : Obj := ⟨0, [("Name", .vStr "x"), ("Age", .vInt 7)]⟩

/-- A record with identity 5 and one nonzero data field. -/
def objC : Obj := ⟨5, [("Name", .vStr "x")]⟩

/-! ### Claim theorems -/

/-- C9: for every record whose Identity field is 0 (and whose schema
resolves), `Delete` returns success without executing any database
statement and without modifying any field of the record. -/
theorem delete_idZero_noop (c : Controller) (obj : Obj) (options : DeleteOptions)
    (hs : c.schema = none) (hid : obj.id = 0) :
    (c.Delete obj options).err = none ∧
    (c.Delete obj options).obj = obj ∧
    (c.Delete obj options).trace = [] := by
  unfold Controller.Delete
  rw [hs]
  simp [GetObjIDValue, hid]

/-- Witness for C9 at a concrete record with identity 0. -/
theorem delete_idZero_noop_witness :
    (Controller.Delete cOk objA ⟨[]⟩).err = none ∧
    (Controller.Delete cOk objA ⟨[]⟩).obj = objA ∧
    (Controller.Delete cOk objA ⟨[]⟩).trace = [] :=
  delete_idZero_noop cOk objA ⟨[]⟩ rfl rfl

/-- C5: for every record for which the validator reports invalid fields,
`Save` returns a `ValidationError` carrying those invalid field names,
leaves the record unmodified, and executes no database statement. -/
theorem save_validation_failure (c : Controller) (obj : Obj) (options : SaveOptions)
    (fs : List String) (hs : c.schema = none)
    (hv : c.validate [] = ⟨false, fs, false⟩) :
    (c.Save obj options).err = some ⟨"Validate", .validation fs⟩ ∧
    (c.Save obj options).obj = obj ∧
    (c.Save obj options).trace = [] := by
  unfold Controller.Save
  rw [hs]
  simp [hv]

/-- A controller whose validator rejects every map, reporting field
`Age` as invalid. -/
def cInvalid : Controller := { cOk with validate := fun _ => ⟨false, ["Age"], false⟩ }

/-- Witness for C5 at a concrete record and rejecting validator. -/
theorem save_validation_failure_witness :
    (Controller.Save cInvalid objC ⟨false⟩).err = some ⟨"Validate", .validation ["Age"]⟩ ∧
    (Controller.Save cInvalid objC ⟨false⟩).obj = objC ∧
    (Controller.Save cInvalid objC ⟨false⟩).trace = [] :=
  save_validation_failure cInvalid objC ⟨false⟩ ["Age"] rfl rfl

/-- C6: `UpdateMultiple` called with an empty values map always fails
with a `MissingValuesError`, for every choice of filters and options, and
executes no database statement (given that the schema resolves, which the
source checks first). -/
theorem updateMultiple_empty_values (c : Controller) (t : List (String × FKind))
    (options : UpdateMultipleOptions) (hs : c.schema = none) :
    (c.UpdateMultiple t [] options).err = some ⟨"MissingValues", .missingValues⟩ ∧
    (c.UpdateMultiple t [] options).trace = [] := by
  unfold Controller.UpdateMultiple
  rw [hs]
  simp

/-- Witness for C6 at a concrete controller with nonempty filters. -/
theorem updateMultiple_empty_values_witness :
    (Controller.UpdateMultiple cOk [("Age", .int)] []
      ⟨[("Age", .vInt 7)], 0, false⟩).err = some ⟨"MissingValues", .missingValues⟩ ∧
    (Controller.UpdateMultiple cOk [("Age", .int)] []
      ⟨[("Age", .vInt 7)], 0, false⟩).trace = [] :=
  updateMultiple_empty_values cOk [("Age", .int)] ⟨[("Age", .vInt 7)], 0, false⟩ rfl

/-- The zero value of any kind passes the zero check. -/
theorem FValue.isZero_zero (v : FValue) : v.zero.isZero = true := by
  cases v <;> rfl

/-- C1: with the schema resolved and validation passing, `Save` with
Identity 0 executes the insert query and, on success, writes the
database-generated key into the record's Identity field; with nonzero
Identity and `NoInsert` false it executes the upsert statement; with
nonzero Identity and `NoInsert` true it executes update-by-identity
unconditionally (the trace is the same whatever the database reports, so
in particular when no row with that identity exists). -/
theorem save_branch_selection (c : Controller) (obj : Obj) (options : SaveOptions)
    (hs : c.schema = none)
    (hve : (c.validate []).errored = false) (hvb : (c.validate []).b = true) :
    (obj.id = 0 →
      (c.Save obj options).trace = [.dbQuery .insert] ∧
      ∀ nid, c.insertScan = .ok nid →
        (c.Save obj options).err = none ∧ (c.Save obj options).obj.id = nid) ∧
    (obj.id ≠ 0 → options.NoInsert = false →
      (c.Save obj options).trace = [.dbExec .insertOnConflictUpdate] ∧
      (c.Save obj options).obj = obj) ∧
    (obj.id ≠ 0 → options.NoInsert = true →
      (c.Save obj options).trace = [.dbExec .updateById] ∧
      (c.Save obj options).obj = obj) := by
  unfold Controller.Save
  rw [hs]
  simp only [hve, hvb, GetObjIDValue, Bool.false_eq_true, if_false, Bool.not_true, ne_eq,
    ite_not]
  refine ⟨?_, ?_, ?_⟩
  · intro h0
    rw [if_pos h0]
    cases hscan : c.insertScan with
    | error e =>
      refine ⟨rfl, ?_⟩
      intro nid h2
      exact Except.noConfusion h2
    | ok nid =>
      refine ⟨rfl, ?_⟩
      intro nid2 h2
      injection h2 with h3
      subst h3
      exact ⟨rfl, rfl⟩
  · intro hne hni
    rw [if_neg hne, hni]
    simp only [Bool.false_eq_true, if_false]
    cases c.execUpsertErr <;> exact ⟨rfl, rfl⟩
  · intro hne hni
    rw [if_neg hne, hni, if_pos rfl]
    cases c.execUpdateByIdErr <;> exact ⟨rfl, rfl⟩

/-- Witness for C1 at a concrete record with Identity 0 whose insert
returns generated key 42. -/
theorem save_branch_selection_witness :
    (Controller.Save cOk objA ⟨false⟩).trace = [.dbQuery .insert] ∧
    (Controller.Save cOk objA ⟨false⟩).err = none ∧
    (Controller.Save cOk objA ⟨false⟩).obj.id = 42 := by
  have h := (save_branch_selection cOk objA ⟨false⟩ rfl rfl rfl).1 rfl
  exact ⟨h.1, (h.2 42 rfl).1, (h.2 42 rfl).2⟩

/-- C4: for every well-formed integer id string for which the
select-by-identity query reports `sql.ErrNoRows`, `Load` resets the
record's Identity and every data field to its zero value and returns
success. -/
theorem load_noRows_resets (c : Controller) (obj : Obj) (id : String) (n : Int)
    (hid : goAtoi id = some n) (hs : c.schema = none)
    (hnr : c.selectByIdScan = .error .noRows) :
    (c.Load obj id).err = none ∧
    (c.Load obj id).obj = ResetFields obj ∧
    (c.Load obj id).obj.id = 0 ∧
    ∀ p ∈ (c.Load obj id).obj.fields, p.2.isZero = true := by
  unfold Controller.Load
  rw [hid, hs, hnr]
  refine ⟨rfl, rfl, rfl, ?_⟩
  intro p hp
  simp only [ResetFields, List.mem_map] at hp
  obtain ⟨q, _, rfl⟩ := hp
  exact FValue.isZero_zero q.2

/-- Witness for C4 at a concrete record and id string. -/
theorem load_noRows_resets_witness :
    (Controller.Load cOk objC "5").err = none ∧
    (Controller.Load cOk objC "5").obj = ResetFields objC ∧
    (Controller.Load cOk objC "5").obj.id = 0 ∧
    ∀ p ∈ (Controller.Load cOk objC "5").obj.fields, p.2.isZero = true :=
  load_noRows_resets cOk objC "5" 5 (by decide) rfl rfl

/-- C3 counterexample: `Delete` on a record with Identity 0 but a nonzero
data field succeeds yet leaves the record untouched, so not every
successful `Delete` zeroes the record's fields. -/
theorem delete_reset_counterexample :
    (Controller.Delete cOk objA ⟨["x"]⟩).err = none ∧
    (Controller.Delete cOk objA ⟨["x"]⟩).obj = objA ∧
    ¬ (∀ p ∈ (Controller.Delete cOk objA ⟨["x"]⟩).obj.fields, p.2.isZero = true) := by
  refine ⟨rfl, rfl, ?_⟩
  intro h
  have := h ("Name", .vStr "x") (by decide)
  exact absurd this (by decide)

/-- C3 amended: after every successful `Delete` call on a record whose
Identity field is nonzero, the record's Identity and all data fields
equal their zero values (a record with Identity 0 is left unmodified, as
C9 states). -/
theorem delete_success_resets (c : Controller) (obj : Obj) (options : DeleteOptions)
    (hs : c.schema = none) (hid : obj.id ≠ 0)
    (hsucc : (c.Delete obj options).err = none) :
    (c.Delete obj options).obj.id = 0 ∧
    ∀ p ∈ (c.Delete obj options).obj.fields, p.2.isZero = true := by
  unfold Controller.Delete at hsucc ⊢
  rw [hs] at hsucc ⊢
  simp only [GetObjIDValue, if_neg hid] at hsucc ⊢
  revert hsucc
  cases c.execDeleteByIdErr with
  | some e => intro hsucc; exact Option.noConfusion hsucc
  | none =>
    cases c.cascade [obj.id] 0 with
    | some e => intro hsucc; exact Option.noConfusion hsucc
    | none =>
      intro hsucc
      refine ⟨rfl, ?_⟩
      intro p hp
      have hp2 : p ∈ (ResetFields obj).fields := hp
      simp only [ResetFields, List.mem_map] at hp2
      obtain ⟨q, _, rfl⟩ := hp2
      exact FValue.isZero_zero q.2

/-- Witness for the amended C3 at a concrete record with identity 5. -/
theorem delete_success_resets_witness :
    (Controller.Delete cOk objC ⟨[]⟩).obj.id = 0 ∧
    ∀ p ∈ (Controller.Delete cOk objC ⟨[]⟩).obj.fields, p.2.isZero = true :=
  delete_success_resets cOk objC ⟨[]⟩ rfl (by decide) rfl

/-- A controller whose select-by-identity fails with a driver error
(code 7), not `sql.ErrNoRows`. -/
def cDbFail : Controller := { cOk with selectByIdScan := .error (.failure 7) }

/-- C8 (code bug): when the select-by-identity in `Load` fails with an
error other than `sql.ErrNoRows`, the returned `DBQuery` error wraps the
already-nil Atoi error `err`, not the database error `err3`, so the
underlying database failure is absent from the returned error. -/
theorem load_queryError_wraps_nothing :
    (Controller.Load cDbFail objC "5").err = some ⟨"DBQuery", .wrapped none⟩ ∧
    ∀ e : DBErr, (Controller.Load cDbFail objC "5").err ≠
      some ⟨"DBQuery", .wrapped (some (.dbE e))⟩ := by
  refine ⟨rfl, ?_⟩
  intro e h
  rw [show (Controller.Load cDbFail objC "5").err = some ⟨"DBQuery", .wrapped none⟩ from rfl] at h
  cases h

/-- C2: in `DeleteMultiple` (on the success path: schema resolved,
filters valid, delete query and id scans succeeded) the cascade traversal
is invoked iff the supplied `CascadeDeleteDepth` is strictly below 3, it
is seeded exactly with the identities returned by the
delete-returning-ids query, and a depth of 3 or more skips cascading and
still succeeds. -/
theorem deleteMultiple_cascade_gating (c : Controller) (f : Unit → Obj)
    (options : DeleteMultipleOptions)
    (hs : c.schema = none)
    (hvb : (c.validate options.Filters).b = true)
    (hve : (c.validate options.Filters).errored = false)
    (rows : List (Except DBErr Int)) (ids : List Int)
    (hq : c.deleteReturningRows = .ok rows)
    (hscan : scanReturnedIds rows = .ok ids) :
    (options.CascadeDeleteDepth < 3 →
      (c.DeleteMultiple f options).trace =
        [.dbQuery .deleteReturningID, .cascade ids options.CascadeDeleteDepth]) ∧
    (3 ≤ options.CascadeDeleteDepth →
      (c.DeleteMultiple f options).trace = [.dbQuery .deleteReturningID] ∧
      (c.DeleteMultiple f options).err = none) ∧
    (∀ seed d, Event.cascade seed d ∈ (c.DeleteMultiple f options).trace →
      seed = ids ∧ d = options.CascadeDeleteDepth ∧ options.CascadeDeleteDepth < 3) := by
  have hres : c.DeleteMultiple f options =
      if options.CascadeDeleteDepth < 3 then
        match c.cascade ids options.CascadeDeleteDepth with
        | some e3 =>
          ⟨some e3, [.dbQuery .deleteReturningID, .cascade ids options.CascadeDeleteDepth]⟩
        | none =>
          ⟨none, [.dbQuery .deleteReturningID, .cascade ids options.CascadeDeleteDepth]⟩
      else ⟨none, [.dbQuery .deleteReturningID]⟩ := by
    unfold Controller.DeleteMultiple
    rw [hs]
    simp only [hve, hvb, Bool.and_false, Bool.not_true, Bool.false_eq_true, if_false]
    rw [hq]
    simp only [hscan]
  rw [hres]
  refine ⟨?_, ?_, ?_⟩
  · intro hlt
    rw [if_pos hlt]
    cases c.cascade ids options.CascadeDeleteDepth <;> rfl
  · intro hge
    rw [if_neg (by omega)]
    exact ⟨rfl, rfl⟩
  · intro seed d hmem
    by_cases hlt : options.CascadeDeleteDepth < 3
    · rw [if_pos hlt] at hmem
      revert hmem
      cases c.cascade ids options.CascadeDeleteDepth with
      | some e =>
        intro hmem
        simp only [List.mem_cons, List.not_mem_nil, or_false] at hmem
        rcases hmem with h | h
        · exact Event.noConfusion h
        · injection h with h1 h2
          exact ⟨h1, h2, hlt⟩
      | none =>
        intro hmem
        simp only [List.mem_cons, List.not_mem_nil, or_false] at hmem
        rcases hmem with h | h
        · exact Event.noConfusion h
        · injection h with h1 h2
          exact ⟨h1, h2, hlt⟩
    · rw [if_neg hlt] at hmem
      simp only [List.mem_cons, List.not_mem_nil, or_false] at hmem
      exact Event.noConfusion hmem

/-- Witness for C2 at depth 0 with returned identities 7 and 8. -/
theorem deleteMultiple_cascade_gating_witness :
    (Controller.DeleteMultiple cOk (fun _ => objA)
      ⟨[], 0, []⟩).trace = [.dbQuery .deleteReturningID, .cascade [7, 8] 0] :=
  (deleteMultiple_cascade_gating cOk (fun _ => objA) ⟨[], 0, []⟩ rfl rfl rfl
    [.ok 7, .ok 8] [7, 8] rfl rfl).1 (by decide)

/-- If some row fails to scan, the `Get` row loop discards every
already-bound row and returns the scan error. -/
theorem getRowsLoop_error (tf : Option (Obj → Obj)) (rows : List (Except DBErr Obj))
    (e : DBErr) (hmem : Except.error e ∈ rows) :
    (getRowsLoop tf rows).1 = none ∧
    ∃ e2, (getRowsLoop tf rows).2 = some ⟨"DBQueryRowsScan", .wrapped (some (.dbE e2))⟩ := by
  induction rows with
  | nil => cases hmem
  | cons hd tl ih =>
    cases hd with
    | error e3 => exact ⟨rfl, e3, rfl⟩
    | ok o =>
      have hmem2 : Except.error e ∈ tl := by
        rcases List.mem_cons.mp hmem with h | h
        · exact Except.noConfusion h
        · exact h
      obtain ⟨h1, e2, h2⟩ := ih hmem2
      have hpair : getRowsLoop tf tl =
          (none, some ⟨"DBQueryRowsScan", .wrapped (some (.dbE e2))⟩) :=
        Prod.ext h1 h2
      unfold getRowsLoop
      rw [hpair]
      exact ⟨rfl, e2, rfl⟩

/-- C10: if scanning any result row in `Get` fails, `Get` returns no
result list (Go's nil slice) together with a `DBQueryRowsScan` error
wrapping a scan failure; rows already scanned are discarded. -/
theorem get_scanError_discards (c : Controller) (f : Unit → Obj) (options : GetOptions)
    (hs : c.schema = none)
    (hvb : (c.validate options.Filters).b = true)
    (hve : (c.validate options.Filters).errored = false)
    (rows : List (Except DBErr Obj)) (hq : c.selectRows = .ok rows)
    (e : DBErr) (hmem : Except.error e ∈ rows) :
    (c.Get f options).1 = none ∧
    ∃ e2, (c.Get f options).2.1 = some ⟨"DBQueryRowsScan", .wrapped (some (.dbE e2))⟩ := by
  unfold Controller.Get
  rw [hs]
  simp only [hve, hvb, Bool.and_false, Bool.not_true, Bool.false_eq_true, if_false]
  rw [hq]
  obtain ⟨h1, e2, h2⟩ := getRowsLoop_error options.RowObjTransformFunc rows e hmem
  exact ⟨h1, e2, h2⟩

/-- A controller whose select returns one well-scanned row followed by a
row whose scan fails with driver error 3. -/
def cScanFail : Controller := { cOk with selectRows := .ok [.ok objC, .error (.failure 3)] }

/-- Witness for C10: one good row before the failing row is discarded. -/
theorem get_scanError_discards_witness :
    (Controller.Get cScanFail (fun _ => objA) {}).1 = none ∧
    ∃ e2, (Controller.Get cScanFail (fun _ => objA) {}).2.1 =
      some ⟨"DBQueryRowsScan", .wrapped (some (.dbE e2))⟩ :=
  get_scanError_discards cScanFail (fun _ => objA) {} rfl rfl rfl
    [.ok objC, .error (.failure 3)] rfl (.failure 3) (by simp)

/-- `coerceEntry` on a string-valued entry, written with the kind lookup
outermost. -/
theorem coerceEntry_mk (t : List (String × FKind)) (k : String) (s : String) :
    coerceEntry t (k, FValue.vStr s) =
      match t.lookup k with
      | none => none
      | some .i64 => (goParseInt64 s).map (fun n => (k, FValue.vInt64 n))
      | some .int => (goAtoi s).map (fun n => (k, FValue.vInt n))
      | some .str => some (k, FValue.vStr s)
      | some .bool => some (k, FValue.vBool (s == "true")) := by
  cases ht : t.lookup k with
  | none => simp [coerceEntry, ht]
  | some kd => cases kd <;> simp [coerceEntry, ht]

/-- Every surviving entry of the string-coercion keeps its key. -/
theorem coerceEntry_key (t : List (String × FKind)) (p q : String × FValue)
    (h : coerceEntry t p = some q) : q.1 = p.1 := by
  unfold coerceEntry at h
  split at h
  · exact Option.noConfusion h
  · split at h
    · rw [Option.map_eq_some'] at h
      obtain ⟨n, hn, h2⟩ := h
      rw [← h2]
    · exact Option.noConfusion h
  · split at h
    · rw [Option.map_eq_some'] at h
      obtain ⟨n, hn, h2⟩ := h
      rw [← h2]
    · exact Option.noConfusion h
  · injection h with h2
    rw [← h2]
  · split at h
    · injection h with h2
      rw [← h2]
    · exact Option.noConfusion h

/-- Keys held by no input entry are absent from the coerced output. -/
theorem stringToFieldValues_lookup_none (t : List (String × FKind))
    (vs : List (String × FValue)) (k : String)
    (hk : ∀ p ∈ vs, p.1 ≠ k) :
    (Controller.StringToFieldValues t vs).lookup k = none := by
  induction vs with
  | nil => rfl
  | cons hd tl ih =>
    unfold Controller.StringToFieldValues at ih ⊢
    rw [List.filterMap_cons]
    cases hc : coerceEntry t hd with
    | none => exact ih (fun p hp => hk p (List.mem_cons_of_mem _ hp))
    | some q =>
      have hne : (k == q.1) = false := by
        rw [beq_eq_false_iff_ne]
        intro hkq
        exact hk hd (List.mem_cons_self _ _)
          (by rw [← coerceEntry_key t hd q hc, ← hkq])
      simp only [List.lookup, hne]
      exact ih (fun p hp => hk p (List.mem_cons_of_mem _ hp))

/-- C7: `StringToFieldValues` converts each value whose key names a field
of the record by that field's declared kind — 64-bit and plain integer
parse, boolean exact-match of `"true"`, string passthrough — and drops
keys absent from the record as well as integer values that fail parsing;
stated as a full lookup characterization of the output map. -/
theorem stringToFieldValues_coercion (t : List (String × FKind))
    (values : List (String × String))
    (hnd : (values.map Prod.fst).Nodup) (k : String) :
    (Controller.StringToFieldValues t
        (values.map (fun p => (p.1, FValue.vStr p.2)))).lookup k =
      match values.lookup k, t.lookup k with
      | some s, some .i64 => (goParseInt64 s).map FValue.vInt64
      | some s, some .int => (goAtoi s).map FValue.vInt
      | some s, some .str => some (FValue.vStr s)
      | some s, some .bool => some (FValue.vBool (s == "true"))
      | _, _ => none := by
  revert hnd
  induction values with
  | nil =>
    intro hnd
    rfl
  | cons hd tl ih =>
    intro hnd
    obtain ⟨k1, s1⟩ := hd
    rw [List.map_cons, List.nodup_cons] at hnd
    obtain ⟨hk1, hndtl⟩ := hnd
    rw [List.map_cons]
    unfold Controller.StringToFieldValues
    rw [List.filterMap_cons]
    by_cases hk : k1 = k
    · subst hk
      have hrest : ∀ p ∈ tl.map (fun p => (p.1, FValue.vStr p.2)), p.1 ≠ k1 := by
        intro p hp
        rcases List.mem_map.mp hp with ⟨a, ha, rfl⟩
        intro hak
        exact hk1 (List.mem_map.mpr ⟨a, ha, hak⟩)
      have hlookup1 : List.lookup k1 ((k1, s1) :: tl) = some s1 := by
        simp [List.lookup]
      rw [coerceEntry_mk, hlookup1]
      cases ht : t.lookup k1 with
      | none =>
        exact stringToFieldValues_lookup_none t _ k1 hrest
      | some kd =>
        cases kd with
        | i64 =>
          cases hg : goParseInt64 s1 with
          | none =>
            simp only [hg, Option.map_none']
            exact stringToFieldValues_lookup_none t _ k1 hrest
          | some n =>
            simp only [hg, Option.map_some', List.lookup, beq_self_eq_true]
        | int =>
          cases hg : goAtoi s1 with
          | none =>
            simp only [hg, Option.map_none']
            exact stringToFieldValues_lookup_none t _ k1 hrest
          | some n =>
            simp only [hg, Option.map_some', List.lookup, beq_self_eq_true]
        | str =>
          simp only [List.lookup, beq_self_eq_true]
        | bool =>
          simp only [List.lookup, beq_self_eq_true]
    · have hne : (k == k1) = false := by
        rw [beq_eq_false_iff_ne]
        exact fun h => hk h.symm
      have hlookup1 : List.lookup k ((k1, s1) :: tl) = List.lookup k tl := by
        simp only [List.lookup, hne]
      rw [hlookup1]
      cases hc : coerceEntry t (k1, FValue.vStr s1) with
      | none => exact ih hndtl
      | some q =>
        have hqk1 : q.1 = k1 := coerceEntry_key t (k1, FValue.vStr s1) q hc
        have hqne : (k == q.1) = false := by
          rw [beq_eq_false_iff_ne]
          intro hkq
          exact hk ((hkq.trans hqk1).symm)
        simp only [List.lookup, hqne]
        exact ih hndtl

/-- The record type from the spec's worked example: integer field `Age`
and boolean field `Active`. -/
def tExample : List (String × FKind) := [("Age", .int), ("Active", .bool)]

/-- The input map from the spec's worked example. -/
def vExample : List (String × String) := [("Age", "30"), ("Active", "true"), ("Bogus", "x")]

/-- Witness for C7: the spec's worked example — `Age` parses to 30,
`Active` to `true`, and `Bogus` is silently dropped. -/
theorem stringToFieldValues_coercion_witness :
    (Controller.StringToFieldValues tExample
        (vExample.map (fun p => (p.1, FValue.vStr p.2)))).lookup "Age" =
      some (FValue.vInt 30) ∧
    (Controller.StringToFieldValues tExample
        (vExample.map (fun p => (p.1, FValue.vStr p.2)))).lookup "Active" =
      some (FValue.vBool true) ∧
    (Controller.StringToFieldValues tExample
        (vExample.map (fun p => (p.1, FValue.vStr p.2)))).lookup "Bogus" = none := by
  refine ⟨?_, ?_, ?_⟩
  · exact (stringToFieldValues_coercion tExample vExample (by decide) "Age").trans (by decide)
  · exact (stringToFieldValues_coercion tExample vExample (by decide) "Active").trans (by decide)
  · exact (stringToFieldValues_coercion tExample vExample (by decide) "Bogus").trans (by decide)

end Struct2DB
